import Mathlib

/-!
Shallow embedding of the `py-dedup` library (files `hasher.py`, `cache/memory.py`,
`deduplicator.py`, `exceptions.py`) and proofs of the specification claims.

Modelling conventions:
* Python `float` monotonic-clock readings are modelled as rationals `ℚ`;
  the clock value `now` is passed explicitly to each stateful operation.
* JSON values are the inductive `JsonValue` (numbers restricted to `Int`,
  which suffices for every claim; no claim concerns float formatting).
* Python standard-library functions external to the repository
  (`json.loads`, `hashlib`) are parameters collected in `PyLib`;
  every repository function is translated directly from the source.
* Exceptions are values of `PyExc`; fallible code returns `Except`.
-/

/-- JSON values, as produced by `json.loads` / consumed by `json.dumps`.
Object fields are an association list in insertion order. -/
inductive JsonValue : Type where
  | null : JsonValue
  | bool (b : Bool) : JsonValue
  | num (n : Int) : JsonValue
  | str (s : String) : JsonValue
  | arr (items : List JsonValue) : JsonValue
  | obj (fields : List (String × JsonValue)) : JsonValue

/-- Hexadecimal digit characters, used for control-character escapes. -/
def hexDigit (n : Nat) : Char :=
  (String.toList "0123456789abcdef").getD n '0'

/-- JSON string escaping of one character, as `json.dumps` with
`ensure_ascii=False` does it: only the quote, the backslash and control
characters are escaped. -/
def escapeChar (c : Char) : String :=
  if c = '"' then "\\\""
  else if c = '\\' then "\\\\"
  else if c = '\n' then "\\n"
  else if c = '\t' then "\\t"
  else if c = '\r' then "\\r"
  else if c = '\x08' then "\\b"
  else if c = '\x0c' then "\\f"
  else if c.toNat < 32 then
    "\\u00" ++ String.singleton (hexDigit (c.toNat / 16)) ++
      String.singleton (hexDigit (c.toNat % 16))
  else String.singleton c

/-- JSON rendering of a string literal, including the surrounding quotes. -/
def encodeJsonString (s : String) : String :=
  "\"" ++ String.join (s.toList.map escapeChar) ++ "\""

/-- Order on rendered object fields: compare keys only.  `json.dumps` with
`sort_keys=True` sorts the items of a dict by key; dict keys are unique, so
comparing keys alone is equivalent to CPython comparing whole items. -/
def pairLE (p q : String × String) : Prop := p.1 ≤ q.1

instance : DecidableRel pairLE := fun p q => inferInstanceAs (Decidable (p.1 ≤ q.1))

instance : IsTotal (String × String) pairLE := ⟨fun p q => le_total p.1 q.1⟩

instance : IsTrans (String × String) pairLE := ⟨fun _ _ _ h1 h2 => le_trans h1 h2⟩

/-- Sort rendered object fields by key when `sort_keys` is set, as
`json.dumps(..., sort_keys=sk)` does.  The sort is stable and compares only
keys, so sorting the rendered `(key, rendered value)` pairs produces the same
field order as sorting the items before rendering. -/
def sortPairs (sk : Bool) (ps : List (String × String)) : List (String × String) :=
  if sk then List.insertionSort pairLE ps else ps

/-- Join rendered object fields with the default `json.dumps` separators
`", "` and `": "`. -/
def joinPairs : List (String × String) → String
  | [] => ""
  | [(k, s)] => encodeJsonString k ++ ": " ++ s
  | (k, s) :: rest => encodeJsonString k ++ ": " ++ s ++ ", " ++ joinPairs rest

mutual

/-- Model of `json.dumps(message, sort_keys=sk, ensure_ascii=False)` with the
default separators, from `hasher.py` line 88. -/
def json_dumps (sk : Bool) : JsonValue → String
  | .null => "null"
  | .bool true => "true"
  | .bool false => "false"
  | .num n => toString n
  | .str s => encodeJsonString s
  | .arr items => "[" ++ dumpsArr sk items ++ "]"
  | .obj fields => "\x7b" ++ joinPairs (sortPairs sk (renderFields sk fields)) ++ "\x7d"

/-- Rendering of array elements joined by `", "`. -/
def dumpsArr (sk : Bool) : List JsonValue → String
  | [] => ""
  | [v] => json_dumps sk v
  | v :: rest => json_dumps sk v ++ ", " ++ dumpsArr sk rest

/-- Render each object field to a `(key, rendered value)` pair, keeping order. -/
def renderFields (sk : Bool) : List (String × JsonValue) → List (String × String)
  | [] => []
  | (k, v) :: rest => (k, json_dumps sk v) :: renderFields sk rest

end

mutual

/-- Structural equality of JSON values: equal scalars, pointwise-equal
arrays, and objects with the same key/value pairs up to field order.
This is the spec notion of two structurally-equal messages. -/
inductive StructEq : JsonValue → JsonValue → Prop where
  | null : StructEq .null .null
  | bool (b : Bool) : StructEq (.bool b) (.bool b)
  | num (n : Int) : StructEq (.num n) (.num n)
  | str (s : String) : StructEq (.str s) (.str s)
  | arr {xs ys : List JsonValue} : StructEqList xs ys → StructEq (.arr xs) (.arr ys)
  | obj {fs gs hs : List (String × JsonValue)} :
      StructEqFields fs gs → gs.Perm hs → StructEq (.obj fs) (.obj hs)

/-- Pointwise structural equality of array elements. -/
inductive StructEqList : List JsonValue → List JsonValue → Prop where
  | nil : StructEqList [] []
  | cons {v w : JsonValue} {vs ws : List JsonValue} :
      StructEq v w → StructEqList vs ws → StructEqList (v :: vs) (w :: ws)

/-- Pointwise structural equality of object fields: same keys in the same
order, structurally-equal values. -/
inductive StructEqFields :
    List (String × JsonValue) → List (String × JsonValue) → Prop where
  | nil : StructEqFields [] []
  | cons (k : String) {v w : JsonValue} {fs gs : List (String × JsonValue)} :
      StructEq v w → StructEqFields fs gs → StructEqFields ((k, v) :: fs) ((k, w) :: gs)

end

/-- Keys of a list are pairwise distinct (Python dicts cannot hold
duplicate keys, so every message coming from Python satisfies this). -/
def distinctKeys : List String → Bool
  | [] => true
  | k :: ks => (!ks.contains k) && distinctKeys ks

mutual

/-- Every object occurring in the value has pairwise-distinct keys. -/
def nodupKeys : JsonValue → Bool
  | .null => true
  | .bool _ => true
  | .num _ => true
  | .str _ => true
  | .arr items => nodupKeysList items
  | .obj fields => distinctKeys (fields.map Prod.fst) && nodupKeysFields fields

/-- `nodupKeys` over array elements. -/
def nodupKeysList : List JsonValue → Bool
  | [] => true
  | v :: rest => nodupKeys v && nodupKeysList rest

/-- `nodupKeys` over object field values. -/
def nodupKeysFields : List (String × JsonValue) → Bool
  | [] => true
  | (_, v) :: rest => nodupKeys v && nodupKeysFields rest

end

/-- Kinds of exceptions from `exceptions.py`, plus a kind for arbitrary
other Python exceptions an underlying backend could raise. -/
inductive ExcKind : Type where
  | serializationError : ExcKind
  | cacheError : ExcKind
  | configurationError : ExcKind
  | otherError : ExcKind
deriving DecidableEq

/-- A Python exception value: its kind, its message, and (for exceptions
raised with `raise ... from e`) the message of the original cause. -/
structure PyExc : Type where
  kind : ExcKind
  msg : String
  cause : Option String := none
deriving DecidableEq

/-- A Python value passed as the `message` argument (typed `Any` in the
source): a `str`, a JSON-serializable structure, an object exposing
`SerializeToString` (a protobuf message, modelled by the bytes that method
returns), or any other object (not JSON-serializable, no
`SerializeToString`). -/
inductive PyMsg : Type where
  | str (s : String) : PyMsg
  | json (v : JsonValue) : PyMsg
  | proto (payload : List Nat) : PyMsg
  | objOther : PyMsg

/-- Python standard-library functions used by `hasher.py` but external to
the repository: `json.loads` (returning `none` on malformed input, which the
source observes as a `ValueError`) and `hashlib.new(name).hexdigest()` as a
function from algorithm name and input bytes to hex digest string. -/
structure PyLib : Type where
  loads : String → Option JsonValue
  hashBytes : String → List Nat → String

/-- UTF-8 bytes of a string, modelling `s.encode("utf-8")`. -/
def strBytes (s : String) : List Nat :=
  s.toUTF8.toList.map (fun b => b.toNat)

/-- The enum `HashAlgorithm` from `hasher.py`.  It subclasses `str`; each
member is identified with its string value below, because the source stores
the member and only ever uses `self.algorithm.value`. -/
inductive HashAlgorithm : Type where
  | SHA256 : HashAlgorithm
  | MD5 : HashAlgorithm
  | SHA1 : HashAlgorithm
deriving DecidableEq

/-- The string value of an enum member. -/
def HashAlgorithm.value : HashAlgorithm → String
  | .SHA256 => "sha256"
  | .MD5 => "md5"
  | .SHA1 => "sha1"

/-- `MessageHasher` state: the algorithm name actually stored (the type
annotation `HashAlgorithm` is not enforced at runtime, and the constructor
performs no validation, so any string can end up here) and the key-sort
flag (default `True`). -/
structure MessageHasher : Type where
  algorithm : String
  sort_keys : Bool := true

/-- `MessageHasher._hash_string`: digest of the UTF-8 bytes of a string. -/
def MessageHasher.hash_string (lib : PyLib) (h : MessageHasher) (s : String) : String :=
  lib.hashBytes h.algorithm (strBytes s)

/-- `MessageHasher._hash_json` (hasher.py lines 71-96): a string message is
first parsed with `json.loads`, then the value is re-serialized with
`json.dumps(..., sort_keys=self.sort_keys, ensure_ascii=False)` and the
rendering is digested.  A malformed string raises `ValueError` inside the
`try`, and a non-JSON-serializable object raises `TypeError` inside
`json.dumps`; both are caught and re-raised as `SerializationError`. -/
def MessageHasher.hash_json (lib : PyLib) (h : MessageHasher) (m : PyMsg) :
    Except PyExc String :=
  match m with
  | .str s =>
    match lib.loads s with
    | none => .error ⟨.serializationError, "Failed to serialize message to JSON: ...", none⟩
    | some v => .ok (h.hash_string lib (json_dumps h.sort_keys v))
  | .json v => .ok (h.hash_string lib (json_dumps h.sort_keys v))
  | .proto _ => .error ⟨.serializationError, "Failed to serialize message to JSON: ...", none⟩
  | .objOther => .error ⟨.serializationError, "Failed to serialize message to JSON: ...", none⟩

/-- `MessageHasher._hash_protobuf` (hasher.py lines 98-126): calls
`message.SerializeToString()` and digests the bytes; an object without that
method raises `AttributeError`, caught and re-raised as
`SerializationError`. -/
def MessageHasher.hash_protobuf (lib : PyLib) (h : MessageHasher) (m : PyMsg) :
    Except PyExc String :=
  match m with
  | .proto payload => .ok (lib.hashBytes h.algorithm payload)
  | _ => .error ⟨.serializationError, "Failed to serialize protobuf message: ...", none⟩

/-- Model of Python `str.lower()` on the ASCII format names used here. -/
def pyLower (s : String) : String :=
  String.mk (s.data.map Char.toLower)

/-- `MessageHasher.hash_message` (hasher.py lines 46-69): lower-cases the
format name, dispatches on it, and raises `SerializationError` for an
unsupported format. -/
def MessageHasher.hash_message (lib : PyLib) (h : MessageHasher) (m : PyMsg)
    (format : String) : Except PyExc String :=
  let fmt := pyLower format
  if fmt = "json" then h.hash_json lib m
  else if fmt = "protobuf" then h.hash_protobuf lib m
  else .error ⟨.serializationError, "Unsupported message format: " ++ fmt, none⟩

/-- The state of a `MemoryCache`: the `OrderedDict[str, float]` mapping keys
to absolute expiry instants, in insertion order. -/
abbrev MemState := List (String × ℚ)

/-- `MemoryCache.delete` (memory.py lines 65-73): `self._cache.pop(key, None)`. -/
def MemoryCache.delete (st : MemState) (key : String) : MemState :=
  st.eraseP (fun p => p.1 == key)

/-- `MemoryCache.get` (memory.py lines 26-45): look the key up; absent keys
give `False`; an entry with `expire_time < time.monotonic()` is deleted and
gives `False`; otherwise `True`.  The returned pair is (result, new state). -/
def MemoryCache.get (st : MemState) (key : String) (now : ℚ) : Bool × MemState :=
  match List.lookup key st with
  | none => (false, st)
  | some expire_time =>
    if expire_time < now then (false, MemoryCache.delete st key)
    else (true, st)

/-- `MemoryCache.set` (memory.py lines 47-63): a non-positive TTL raises
`CacheError`; otherwise `self._cache[key] = time.monotonic() + ttl_seconds`
followed by `move_to_end(key)`, whose combined effect on the ordered dict is
to drop any existing entry for the key and append the fresh one at the end. -/
def MemoryCache.set (st : MemState) (key : String) (ttl_seconds : Int) (now : ℚ) :
    Except PyExc MemState :=
  if ttl_seconds ≤ 0 then
    .error ⟨.cacheError, "TTL must be a positive number", none⟩
  else
    .ok (MemoryCache.delete st key ++ [(key, now + (ttl_seconds : ℚ))])

/-- `MemoryCache.clear` (memory.py lines 75-77). -/
def MemoryCache.clear (_st : MemState) : MemState := []

/-- An abstract cache backend over state type `σ` (the `BaseCache`
interface from `cache/base.py`): `get` and `set` may raise; an error carries
the state the backend left behind, since Python exceptions do not roll the
state back. -/
structure CacheBackend (σ : Type) : Type where
  get : σ → String → ℚ → Except (PyExc × σ) (Bool × σ)
  set : σ → String → Int → ℚ → Except (PyExc × σ) σ

/-- The `MemoryCache` backend: `get` never raises; `set` raises exactly on a
non-positive TTL, leaving the state unchanged (the check precedes any
mutation in the source). -/
def memBackend : CacheBackend MemState where
  get := fun st key now => .ok (MemoryCache.get st key now)
  set := fun st key ttl now =>
    match MemoryCache.set st key ttl now with
    | .error e => .error (e, st)
    | .ok st2 => .ok st2

/-- The `Deduplicator` fields set by `__init__` (deduplicator.py lines
24-48).  The cache instance itself is threaded separately as backend state.
The `key_pfx` field models `key_prefix` (default `"dedup:"`). -/
structure Deduplicator : Type where
  ttl_seconds : Int
  key_pfx : String
  hasher : MessageHasher

/-- The `ttl_seconds` argument as Python receives it: an `int`, or some
value of another type (`isinstance(ttl_seconds, int)` is `False`). -/
inductive TTLParam : Type where
  | int (n : Int) : TTLParam
  | nonInt : TTLParam

/-- `Deduplicator.__init__` (deduplicator.py lines 24-48): validates only
that `ttl_seconds` is a positive `int` (raising `ConfigurationError`
otherwise); defaults the cache backend to a fresh `MemoryCache` when `None`
is supplied; stores the hash algorithm in a `MessageHasher` without any
validation; `key_prefix` defaults to `"dedup:"`.  Returns the constructed
deduplicator together with its memory-cache state. -/
def Deduplicator.init (ttl : TTLParam) (cache_backend : Option MemState)
    (hash_algorithm : String) (kp : String) :
    Except PyExc (Deduplicator × MemState) :=
  match ttl with
  | .nonInt => .error ⟨.configurationError, "ttl_seconds must be a positive integer", none⟩
  | .int n =>
    if n ≤ 0 then .error ⟨.configurationError, "ttl_seconds must be a positive integer", none⟩
    else .ok (⟨n, kp, ⟨hash_algorithm, true⟩⟩, cache_backend.getD [])

/-- Cache-key derivation inside `is_duplicate` (deduplicator.py lines
76-81): `prefix + custom_key` verbatim when a custom key is given, else
`prefix + hasher.hash_message(message, format)`. -/
def Deduplicator.derive_key (lib : PyLib) (d : Deduplicator) (m : PyMsg)
    (format : String) (custom_key : Option String) : Except PyExc String :=
  match custom_key with
  | some ck => .ok (d.key_pfx ++ ck)
  | none =>
    match d.hasher.hash_message lib m format with
    | .error e => .error e
    | .ok h => .ok (d.key_pfx ++ h)

/-- The body of the `try` block of `Deduplicator.is_duplicate`
(deduplicator.py lines 74-90): derive the key, query the cache, and insert
the key with the configured TTL when it was not present.  Errors carry the
backend state reached when they were raised. -/
def Deduplicator.is_duplicate_body {σ : Type} (lib : PyLib) (be : CacheBackend σ)
    (d : Deduplicator) (st : σ) (m : PyMsg) (format : String)
    (custom_key : Option String) (now : ℚ) : Except (PyExc × σ) (Bool × σ) :=
  match Deduplicator.derive_key lib d m format custom_key with
  | .error e => .error (e, st)
  | .ok cache_key =>
    match be.get st cache_key now with
    | .error es => .error es
    | .ok (isDup, st1) =>
      if isDup then .ok (true, st1)
      else
        match be.set st1 cache_key d.ttl_seconds now with
        | .error es => .error es
        | .ok st2 => .ok (false, st2)

/-- The `except` clause of `is_duplicate` (deduplicator.py lines 92-96):
`SerializationError` and `CacheError` re-raise unchanged; every other
exception is wrapped into a `CacheError` carrying the original cause. -/
def wrapExc (e : PyExc) : PyExc :=
  match e.kind with
  | .serializationError => e
  | .cacheError => e
  | _ => ⟨.cacheError, "Unexpected error during deduplication: " ++ e.msg, some e.msg⟩

/-- `Deduplicator.is_duplicate` (deduplicator.py lines 50-96): the body
wrapped in the exception-translating handler. -/
def Deduplicator.is_duplicate {σ : Type} (lib : PyLib) (be : CacheBackend σ)
    (d : Deduplicator) (st : σ) (m : PyMsg) (format : String)
    (custom_key : Option String) (now : ℚ) : Except (PyExc × σ) (Bool × σ) :=
  match Deduplicator.is_duplicate_body lib be d st m format custom_key now with
  | .ok r => .ok r
  | .error (e, st1) => .error (wrapExc e, st1)

/-- The parsed structured form of a message on the `json` path: a string is
what `json.loads` yields; a structure is itself; other objects have none. -/
def parsedJson (lib : PyLib) : PyMsg → Option JsonValue
  | .str s => lib.loads s
  | .json v => some v
  | .proto _ => none
  | .objOther => none

/-- Concrete object `{"a": 1, "b": 2}` used by witnesses. -/
def vAB : JsonValue := .obj [("a", .num 1), ("b", .num 2)]

/-- The same object with its fields reordered, `{"b": 2, "a": 1}`. -/
def vBA : JsonValue := .obj [("b", .num 2), ("a", .num 1)]

/-- A concrete stand-in for the Python standard library in witnesses: a
`loads` that parses the single string `"reordered"` to `vBA`, and a digest
returning a fixed string (the claims proved here never depend on the digest
beyond it being a function). -/
def libW : PyLib where
  loads := fun s => if s = "reordered" then some vBA else none
  hashBytes := fun _ _ => "H"

/-- A concrete deduplicator used by witnesses. -/
def dW : Deduplicator := ⟨60, "dedup:", ⟨"sha256", true⟩⟩

/-- A backend whose `get` raises an arbitrary non-typed exception, used to
witness the wrapping branch of the exception handler. -/
def failBackend : CacheBackend MemState where
  get := fun st _ _ => .error (⟨.otherError, "boom", none⟩, st)
  set := fun st _ _ _ => .ok st

/-- Helper theorems and claim theorems follow. -/

theorem distinctKeys_iff (l : List String) : distinctKeys l = true ↔ l.Nodup := by
  induction l with
  | nil => simp [distinctKeys]
  | cons k ks ih =>
    simp [distinctKeys, Bool.and_eq_true, ih, List.nodup_cons]

theorem nodupKeysFields_all (l : List (String × JsonValue)) :
    nodupKeysFields l = l.all (fun p => nodupKeys p.2) := by
  induction l with
  | nil => rfl
  | cons p rest ih =>
    cases p
    simp [nodupKeysFields, ih]

theorem nodupKeysFields_of_perm {l1 l2 : List (String × JsonValue)} (h : l1.Perm l2)
    (h2 : nodupKeysFields l2 = true) : nodupKeysFields l1 = true := by
  rw [nodupKeysFields_all, List.all_eq_true] at h2 ⊢
  intro p hp
  exact h2 p (h.mem_iff.mp hp)

theorem renderFields_eq_map (sk : Bool) (l : List (String × JsonValue)) :
    renderFields sk l = l.map (fun p => (p.1, json_dumps sk p.2)) := by
  induction l with
  | nil => rfl
  | cons p rest ih =>
    cases p
    simp [renderFields, ih]

theorem renderFields_keys (sk : Bool) (l : List (String × JsonValue)) :
    (renderFields sk l).map Prod.fst = l.map Prod.fst := by
  rw [renderFields_eq_map, List.map_map]
  rfl

theorem sorted_strict_of_nodup {l : List (String × String)}
    (hs : List.Sorted pairLE l) (hn : (l.map Prod.fst).Nodup) :
    List.Sorted (fun p q : String × String => p.1 < q.1) l := by
  have hne : l.Pairwise (fun p q : String × String => p.1 ≠ q.1) :=
    List.pairwise_map.mp hn
  exact (hs.and hne).imp (fun h => lt_of_le_of_ne h.1 h.2)

theorem insertionSort_eq_of_perm {a b : List (String × String)}
    (hab : a.Perm b) (hnd : (a.map Prod.fst).Nodup) :
    List.insertionSort pairLE a = List.insertionSort pairLE b := by
  have hpp : (List.insertionSort pairLE a).Perm (List.insertionSort pairLE b) :=
    (List.perm_insertionSort pairLE a).trans
      (hab.trans (List.perm_insertionSort pairLE b).symm)
  have hndb : (b.map Prod.fst).Nodup := ((hab.map Prod.fst).nodup_iff).mp hnd
  have hna : ((List.insertionSort pairLE a).map Prod.fst).Nodup :=
    (((List.perm_insertionSort pairLE a).map Prod.fst).nodup_iff).mpr hnd
  have hnb : ((List.insertionSort pairLE b).map Prod.fst).Nodup :=
    (((List.perm_insertionSort pairLE b).map Prod.fst).nodup_iff).mpr hndb
  haveI : IsAntisymm (String × String) (fun p q => p.1 < q.1) :=
    ⟨fun _ _ h1 h2 => absurd h1 (lt_asymm h2)⟩
  exact List.eq_of_perm_of_sorted hpp
    (sorted_strict_of_nodup (List.sorted_insertionSort pairLE a) hna)
    (sorted_strict_of_nodup (List.sorted_insertionSort pairLE b) hnb)

theorem dumpsArr_congr : ∀ (vs ws : List JsonValue),
    vs.map (json_dumps true) = ws.map (json_dumps true) →
    dumpsArr true vs = dumpsArr true ws
  | [], [], _ => rfl
  | [], _ :: _, h => by simp at h
  | _ :: _, [], h => by simp at h
  | v :: vs, w :: ws, h => by
    simp only [List.map_cons, List.cons.injEq] at h
    obtain ⟨h1, h2⟩ := h
    match vs, ws, h2 with
    | [], [], _ => simp [dumpsArr, h1]
    | [], _ :: _, h2 => simp at h2
    | _ :: _, [], h2 => simp at h2
    | v2 :: vs2, w2 :: ws2, h2 =>
      have ih := dumpsArr_congr (v2 :: vs2) (w2 :: ws2) h2
      simp only [dumpsArr, h1, ih]

mutual

theorem structEq_dumps : ∀ {v w : JsonValue}, StructEq v w →
    nodupKeys v = true → nodupKeys w = true → json_dumps true v = json_dumps true w
  | _, _, .null, _, _ => rfl
  | _, _, .bool _, _, _ => rfl
  | _, _, .num _, _, _ => rfl
  | _, _, .str _, _, _ => rfl
  | _, _, .arr hl, hv, hw => by
    simp only [nodupKeys] at hv hw
    simp only [json_dumps]
    rw [dumpsArr_congr _ _ (structEqList_map hl hv hw)]
  | _, _, @StructEq.obj fs gs hs hfg hperm, hv, hw => by
    simp only [nodupKeys, Bool.and_eq_true] at hv hw
    obtain ⟨hdf, hnf⟩ := hv
    obtain ⟨hdh, hnh⟩ := hw
    have hgs : nodupKeysFields gs = true := nodupKeysFields_of_perm hperm hnh
    have hrender := structEqFields_render hfg hnf hgs
    have hpermR : (renderFields true gs).Perm (renderFields true hs) := by
      rw [renderFields_eq_map true gs, renderFields_eq_map true hs]
      exact hperm.map _
    have hkeys : ((renderFields true gs).map Prod.fst).Nodup := by
      rw [renderFields_keys]
      exact ((hperm.map Prod.fst).nodup_iff).mpr ((distinctKeys_iff _).mp hdh)
    have hsp : sortPairs true (renderFields true gs) =
        sortPairs true (renderFields true hs) := by
      simp only [sortPairs, if_true]
      exact insertionSort_eq_of_perm hpermR hkeys
    simp only [json_dumps]
    rw [hrender, hsp]

theorem structEqList_map : ∀ {vs ws : List JsonValue}, StructEqList vs ws →
    nodupKeysList vs = true → nodupKeysList ws = true →
    vs.map (json_dumps true) = ws.map (json_dumps true)
  | _, _, .nil, _, _ => rfl
  | _, _, .cons hvw hrest, hv, hw => by
    simp only [nodupKeysList, Bool.and_eq_true] at hv hw
    simp only [List.map_cons, List.cons.injEq]
    exact ⟨structEq_dumps hvw hv.1 hw.1, structEqList_map hrest hv.2 hw.2⟩

theorem structEqFields_render : ∀ {fs gs : List (String × JsonValue)},
    StructEqFields fs gs → nodupKeysFields fs = true → nodupKeysFields gs = true →
    renderFields true fs = renderFields true gs
  | _, _, .nil, _, _ => rfl
  | _, _, .cons k hvw hrest, hf, hg => by
    simp only [nodupKeysFields, Bool.and_eq_true] at hf hg
    simp only [renderFields, List.cons.injEq, Prod.mk.injEq]
    exact ⟨⟨trivial, structEq_dumps hvw hf.1 hg.1⟩, structEqFields_render hrest hf.2 hg.2⟩

end

theorem lookup_cons (key k : String) (v : ℚ) (rest : MemState) :
    List.lookup key ((k, v) :: rest) = if key = k then some v else List.lookup key rest := by
  rw [List.lookup]
  cases h : key == k with
  | true =>
    rw [beq_iff_eq] at h
    simp [h]
  | false =>
    rw [beq_eq_false_iff_ne] at h
    simp [h]

theorem lookup_eq_none_iff {st : MemState} {key : String} :
    List.lookup key st = none ↔ key ∉ st.map Prod.fst := by
  induction st with
  | nil => simp
  | cons p rest ih =>
    cases p with
    | mk k v =>
      rw [lookup_cons]
      by_cases h : key = k
      · simp [h]
      · simp [h, ih]

theorem delete_cons (key k : String) (v : ℚ) (rest : MemState) :
    MemoryCache.delete ((k, v) :: rest) key =
      if k = key then rest else (k, v) :: MemoryCache.delete rest key := by
  simp only [MemoryCache.delete, List.eraseP_cons]
  cases h : k == key with
  | true =>
    rw [beq_iff_eq] at h
    simp [h]
  | false =>
    rw [beq_eq_false_iff_ne] at h
    simp [h]

theorem lookup_delete_other {st : MemState} {key k : String} (hne : k ≠ key) :
    List.lookup k (MemoryCache.delete st key) = List.lookup k st := by
  induction st with
  | nil => rfl
  | cons p rest ih =>
    cases p with
    | mk k0 v0 =>
      rw [delete_cons]
      by_cases h0 : k0 = key
      · rw [if_pos h0, lookup_cons, if_neg (by rw [h0]; exact hne)]
      · rw [if_neg h0, lookup_cons, lookup_cons]
        by_cases hk : k = k0
        · simp [hk]
        · simp [hk, ih]

theorem lookup_delete_self {st : MemState} {key : String}
    (hnd : (st.map Prod.fst).Nodup) :
    List.lookup key (MemoryCache.delete st key) = none := by
  induction st with
  | nil => rfl
  | cons p rest ih =>
    cases p with
    | mk k0 v0 =>
      simp only [List.map_cons, List.nodup_cons] at hnd
      rw [delete_cons]
      by_cases h0 : k0 = key
      · rw [if_pos h0]
        rw [lookup_eq_none_iff]
        rw [← h0]
        exact hnd.1
      · rw [if_neg h0, lookup_cons, if_neg (fun h => h0 h.symm), ih hnd.2]

theorem delete_nodup {st : MemState} (key : String)
    (hnd : (st.map Prod.fst).Nodup) :
    ((MemoryCache.delete st key).map Prod.fst).Nodup :=
  ((List.eraseP_sublist st).map Prod.fst).nodup hnd

theorem lookup_append_or (k : String) (l1 l2 : MemState) :
    List.lookup k (l1 ++ l2) = (List.lookup k l1).or (List.lookup k l2) := by
  induction l1 with
  | nil => simp
  | cons p rest ih =>
    cases p with
    | mk k0 v0 =>
      rw [List.cons_append, lookup_cons, lookup_cons]
      by_cases h : k = k0
      · simp [h]
      · simp [h, ih]

theorem lookup_set_self {st : MemState} {key : String} (v : ℚ)
    (hnd : (st.map Prod.fst).Nodup) :
    List.lookup key (MemoryCache.delete st key ++ [(key, v)]) = some v := by
  rw [lookup_append_or, lookup_delete_self hnd, lookup_cons, if_pos rfl]
  rfl

theorem lookup_set_other {st : MemState} {key k : String} (v : ℚ) (hne : k ≠ key) :
    List.lookup k (MemoryCache.delete st key ++ [(key, v)]) = List.lookup k st := by
  rw [lookup_append_or, lookup_delete_other hne, lookup_cons, if_neg hne]
  cases List.lookup k st <;> rfl

theorem mc_get_none {st : MemState} {key : String} {now : ℚ}
    (h : List.lookup key st = none) :
    MemoryCache.get st key now = (false, st) := by
  simp [MemoryCache.get, h]

theorem mc_get_true_iff (st : MemState) (key : String) (now : ℚ) :
    (MemoryCache.get st key now).1 = true ↔
      ∃ e, List.lookup key st = some e ∧ now ≤ e := by
  cases h : List.lookup key st with
  | none => simp [MemoryCache.get, h]
  | some e =>
    simp only [MemoryCache.get, h]
    by_cases hlt : e < now
    · rw [if_pos hlt]
      constructor
      · intro hc
        simp at hc
      · rintro ⟨e2, he2, hle⟩
        injection he2 with he2
        subst he2
        exact absurd hlt (not_lt.mpr hle)
    · rw [if_neg hlt]
      exact ⟨fun _ => ⟨e, rfl, le_of_not_lt hlt⟩, fun _ => rfl⟩

theorem mc_get_eq_of_true {st : MemState} {key : String} {now : ℚ}
    (h : (MemoryCache.get st key now).1 = true) :
    MemoryCache.get st key now = (true, st) := by
  cases hl : List.lookup key st with
  | none => rw [mc_get_none hl] at h; exact absurd h (by simp)
  | some e =>
    by_cases hlt : e < now
    · simp [MemoryCache.get, hl, hlt] at h
    · simp [MemoryCache.get, hl, hlt]

theorem mc_get_false_none {st : MemState} {key : String} {now : ℚ}
    (hnd : (st.map Prod.fst).Nodup)
    (h : (MemoryCache.get st key now).1 = false) :
    List.lookup key (MemoryCache.get st key now).2 = none := by
  cases hl : List.lookup key st with
  | none => rw [mc_get_none hl]; exact hl
  | some e =>
    by_cases hlt : e < now
    · simp [MemoryCache.get, hl, hlt, lookup_delete_self hnd]
    · simp [MemoryCache.get, hl, hlt] at h

theorem mc_get_nodup {st : MemState} (key : String) (now : ℚ)
    (hnd : (st.map Prod.fst).Nodup) :
    (((MemoryCache.get st key now).2).map Prod.fst).Nodup := by
  cases hl : List.lookup key st with
  | none => rw [mc_get_none hl]; exact hnd
  | some e =>
    by_cases hlt : e < now
    · simp only [MemoryCache.get, hl, if_pos hlt]
      exact delete_nodup key hnd
    · simp only [MemoryCache.get, hl, if_neg hlt]
      exact hnd

theorem mc_set_err {st : MemState} {key : String} {ttl : Int} {now : ℚ}
    (h : ttl ≤ 0) :
    MemoryCache.set st key ttl now =
      .error ⟨.cacheError, "TTL must be a positive number", none⟩ := by
  simp [MemoryCache.set, h]

theorem mc_set_ok {st : MemState} {key : String} {ttl : Int} {now : ℚ}
    (h : 0 < ttl) :
    MemoryCache.set st key ttl now =
      .ok (MemoryCache.delete st key ++ [(key, now + (ttl : ℚ))]) := by
  simp [MemoryCache.set, not_le.mpr h]

theorem isdup_fresh {lib : PyLib} {d : Deduplicator} {st : MemState} {m : PyMsg}
    {f : String} {ck : Option String} {k : String} {now : ℚ}
    (hkey : Deduplicator.derive_key lib d m f ck = .ok k)
    (httl : 0 < d.ttl_seconds)
    (hfresh : (MemoryCache.get st k now).1 = false) :
    Deduplicator.is_duplicate lib memBackend d st m f ck now =
      .ok (false, MemoryCache.delete (MemoryCache.get st k now).2 k ++
        [(k, now + (d.ttl_seconds : ℚ))]) := by
  set st1 := (MemoryCache.get st k now).2 with hst1
  have hg : MemoryCache.get st k now = (false, st1) := by
    rw [hst1, ← hfresh]
  simp only [Deduplicator.is_duplicate, Deduplicator.is_duplicate_body, hkey, memBackend,
    hg, mc_set_ok httl, Bool.false_eq_true, if_false]

theorem isdup_dup {lib : PyLib} {d : Deduplicator} {st : MemState} {m : PyMsg}
    {f : String} {ck : Option String} {k : String} {now : ℚ}
    (hkey : Deduplicator.derive_key lib d m f ck = .ok k)
    (hlive : (MemoryCache.get st k now).1 = true) :
    Deduplicator.is_duplicate lib memBackend d st m f ck now = .ok (true, st) := by
  simp only [Deduplicator.is_duplicate, Deduplicator.is_duplicate_body, hkey, memBackend,
    mc_get_eq_of_true hlive, if_true]

theorem wrapExc_kind (e : PyExc) :
    (wrapExc e).kind = .serializationError ∨ (wrapExc e).kind = .cacheError := by
  rcases e with ⟨k, m, c⟩
  cases k <;> simp [wrapExc]

theorem wrapExc_id {e : PyExc}
    (h : e.kind = .serializationError ∨ e.kind = .cacheError) : wrapExc e = e := by
  rcases e with ⟨k, m, c⟩
  cases k <;> simp_all [wrapExc]

theorem wrapExc_wraps {e : PyExc}
    (h1 : e.kind ≠ .serializationError) (h2 : e.kind ≠ .cacheError) :
    wrapExc e =
      ⟨.cacheError, "Unexpected error during deduplication: " ++ e.msg, some e.msg⟩ := by
  rcases e with ⟨k, m, c⟩
  cases k <;> simp_all [wrapExc]

theorem hash_json_error_kind (lib : PyLib) (h : MessageHasher) (m : PyMsg) :
    ∀ e, MessageHasher.hash_json lib h m = .error e → e.kind = .serializationError := by
  intro e he
  cases m with
  | str s =>
    simp only [MessageHasher.hash_json] at he
    cases hl : lib.loads s with
    | none =>
      rw [hl] at he
      injection he with he
      rw [← he]
    | some v =>
      rw [hl] at he
      exact absurd he (by simp)
  | json v =>
    simp only [MessageHasher.hash_json] at he
    exact Except.noConfusion he
  | proto p =>
    simp only [MessageHasher.hash_json] at he
    injection he with he
    rw [← he]
  | objOther =>
    simp only [MessageHasher.hash_json] at he
    injection he with he
    rw [← he]

theorem hash_protobuf_error_kind (lib : PyLib) (h : MessageHasher) (m : PyMsg) :
    ∀ e, MessageHasher.hash_protobuf lib h m = .error e → e.kind = .serializationError := by
  intro e he
  cases m with
  | proto p =>
    simp only [MessageHasher.hash_protobuf] at he
    exact Except.noConfusion he
  | str s =>
    simp only [MessageHasher.hash_protobuf] at he
    injection he with he
    rw [← he]
  | json v =>
    simp only [MessageHasher.hash_protobuf] at he
    injection he with he
    rw [← he]
  | objOther =>
    simp only [MessageHasher.hash_protobuf] at he
    injection he with he
    rw [← he]

theorem hash_json_error_msg (lib : PyLib) (h : MessageHasher) (m : PyMsg) :
    ∀ e, MessageHasher.hash_json lib h m = .error e →
      e.msg = "Failed to serialize message to JSON: ..." := by
  intro e he
  cases m with
  | str s =>
    simp only [MessageHasher.hash_json] at he
    cases hl : lib.loads s with
    | none =>
      rw [hl] at he
      injection he with he
      rw [← he]
    | some v =>
      rw [hl] at he
      exact absurd he (by simp)
  | json v =>
    simp only [MessageHasher.hash_json] at he
    exact Except.noConfusion he
  | proto p =>
    simp only [MessageHasher.hash_json] at he
    injection he with he
    rw [← he]
  | objOther =>
    simp only [MessageHasher.hash_json] at he
    injection he with he
    rw [← he]

theorem hash_protobuf_error_msg (lib : PyLib) (h : MessageHasher) (m : PyMsg) :
    ∀ e, MessageHasher.hash_protobuf lib h m = .error e →
      e.msg = "Failed to serialize protobuf message: ..." := by
  intro e he
  cases m with
  | proto p =>
    simp only [MessageHasher.hash_protobuf] at he
    exact Except.noConfusion he
  | str s =>
    simp only [MessageHasher.hash_protobuf] at he
    injection he with he
    rw [← he]
  | json v =>
    simp only [MessageHasher.hash_protobuf] at he
    injection he with he
    rw [← he]
  | objOther =>
    simp only [MessageHasher.hash_protobuf] at he
    injection he with he
    rw [← he]

theorem hash_message_error_kind (lib : PyLib) (h : MessageHasher) (m : PyMsg)
    (f : String) :
    ∀ e, MessageHasher.hash_message lib h m f = .error e →
      e.kind = .serializationError := by
  intro e he
  simp only [MessageHasher.hash_message] at he
  split_ifs at he with h1 h2
  · exact hash_json_error_kind lib h m e he
  · exact hash_protobuf_error_kind lib h m e he
  · injection he with he
    rw [← he]

theorem hash_message_json_eval (lib : PyLib) (h : MessageHasher) (m : PyMsg)
    (v : JsonValue) (hm : parsedJson lib m = some v) :
    MessageHasher.hash_message lib h m "json" =
      .ok (h.hash_string lib (json_dumps h.sort_keys v)) := by
  have hred : MessageHasher.hash_message lib h m "json" = h.hash_json lib m := rfl
  rw [hred]
  cases m with
  | str s =>
    simp only [parsedJson] at hm
    simp only [MessageHasher.hash_json, hm]
  | json v2 =>
    simp only [parsedJson, Option.some.injEq] at hm
    subst hm
    rfl
  | proto p => simp [parsedJson] at hm
  | objOther => simp [parsedJson] at hm

theorem structEq_vAB_vBA : StructEq vAB vBA :=
  StructEq.obj
    (StructEqFields.cons "a" (StructEq.num 1)
      (StructEqFields.cons "b" (StructEq.num 2) StructEqFields.nil))
    (List.Perm.swap ("b", JsonValue.num 2) ("a", JsonValue.num 1) [])

theorem nodupKeys_vAB : nodupKeys vAB = true := by
  simp [vAB, nodupKeys, nodupKeysFields, distinctKeys]

theorem nodupKeys_vBA : nodupKeys vBA = true := by
  simp [vBA, nodupKeys, nodupKeysFields, distinctKeys]

/-- C2: for all structurally-equal messages in the json encoding — same keys
and values up to object-field order, whether supplied as parsed structures or
as strings parsing to such structures — `hash_message` produces the same
digest when the key-sort option is enabled. -/
theorem hash_message_respects_structEq
    (lib : PyLib) (h : MessageHasher) (m1 m2 : PyMsg) (v1 v2 : JsonValue)
    (hsk : h.sort_keys = true)
    (h1 : parsedJson lib m1 = some v1) (h2 : parsedJson lib m2 = some v2)
    (heq : StructEq v1 v2)
    (hn1 : nodupKeys v1 = true) (hn2 : nodupKeys v2 = true) :
    MessageHasher.hash_message lib h m1 "json" =
      MessageHasher.hash_message lib h m2 "json" := by
  rw [hash_message_json_eval lib h m1 v1 h1, hash_message_json_eval lib h m2 v2 h2, hsk,
    structEq_dumps heq hn1 hn2]

/-- C2 witness: the dict `{"a": 1, "b": 2}` and the string parsing to
`{"b": 2, "a": 1}` hash identically. -/
theorem hash_message_respects_structEq_witness :
    StructEq vAB vBA ∧
    MessageHasher.hash_message libW ⟨"sha256", true⟩ (.json vAB) "json" =
      MessageHasher.hash_message libW ⟨"sha256", true⟩ (.str "reordered") "json" :=
  ⟨structEq_vAB_vBA,
   hash_message_respects_structEq libW ⟨"sha256", true⟩ (.json vAB) (.str "reordered")
     vAB vBA rfl rfl rfl structEq_vAB_vBA nodupKeys_vAB nodupKeys_vBA⟩

/-- C3 (amended): `MemoryCache.get` returns true iff the key is present and
the current monotonic time is at most its stored expiry instant (the code
keeps an entry live at `now = expiry`); an entry whose expiry lies strictly
before `now` is removed before false is returned; a missing key yields false
with the state unchanged, never an error. -/
theorem cache_get_live_semantics (st : MemState) (key : String) (now : ℚ)
    (hnd : (st.map Prod.fst).Nodup) :
    ((MemoryCache.get st key now).1 = true ↔
      ∃ e, List.lookup key st = some e ∧ now ≤ e)
    ∧ (List.lookup key st = none → MemoryCache.get st key now = (false, st))
    ∧ ((MemoryCache.get st key now).1 = false →
      List.lookup key (MemoryCache.get st key now).2 = none) :=
  ⟨mc_get_true_iff st key now, mc_get_none, mc_get_false_none hnd⟩

/-- C3 witness: a live hit and a missing-key miss, concretely. -/
theorem cache_get_live_semantics_witness :
    (MemoryCache.get [("a", (3 : ℚ))] "a" 1).1 = true
    ∧ MemoryCache.get [("a", (3 : ℚ))] "b" 1 = (false, [("a", (3 : ℚ))]) :=
  ⟨(cache_get_live_semantics [("a", (3 : ℚ))] "a" 1 (by simp)).1.mpr
      ⟨3, by simp [lookup_cons], by norm_num⟩,
   (cache_get_live_semantics [("a", (3 : ℚ))] "b" 1 (by simp)).2.1
      (by simp [lookup_cons])⟩

/-- C3 counterexample: at `now` exactly equal to the stored expiry instant
the code reports the entry as live, so "true iff present and now is strictly
less than expiry" is false at this input. -/
theorem cache_get_strict_liveness_cex :
    ¬ (((MemoryCache.get [("k", (5 : ℚ))] "k" 5).1 = true) ↔
      ∃ e, List.lookup "k" [("k", (5 : ℚ))] = some e ∧ (5 : ℚ) < e) := by
  intro hiff
  have h1 : (MemoryCache.get [("k", (5 : ℚ))] "k" 5).1 = true := by
    rw [mc_get_true_iff]
    exact ⟨5, by simp [lookup_cons], le_refl 5⟩
  obtain ⟨e, he, hlt⟩ := hiff.mp h1
  rw [lookup_cons, if_pos rfl] at he
  injection he with he
  rw [← he] at hlt
  exact absurd hlt (lt_irrefl 5)

/-- C5: `MemoryCache.set` fails with the cache-level TTL error iff
`ttl_seconds ≤ 0`; for positive TTL it always succeeds — also when the key
already exists and is still live — overwriting the key's expiry to
`now + ttl_seconds`, placing the key at the most-recently-inserted position,
and leaving every other key's binding unchanged. -/
theorem cache_set_ttl_validation (st : MemState) (key : String) (ttl : Int) (now : ℚ)
    (hnd : (st.map Prod.fst).Nodup) :
    (ttl ≤ 0 → MemoryCache.set st key ttl now =
      .error ⟨.cacheError, "TTL must be a positive number", none⟩)
    ∧ (0 < ttl → ∃ st2, MemoryCache.set st key ttl now = .ok st2
        ∧ List.lookup key st2 = some (now + (ttl : ℚ))
        ∧ st2.getLast? = some (key, now + (ttl : ℚ))
        ∧ ∀ k, k ≠ key → List.lookup k st2 = List.lookup k st) := by
  refine ⟨mc_set_err, fun h =>
    ⟨_, mc_set_ok h, lookup_set_self _ hnd, ?_, fun k hk => lookup_set_other _ hk⟩⟩
  rw [List.getLast?_append_cons]
  rfl

/-- C5 witness: rejection of a zero TTL, and successful re-insertion over a
still-live key. -/
theorem cache_set_ttl_validation_witness :
    MemoryCache.set [("k", (9 : ℚ))] "k" 0 0 =
      .error ⟨.cacheError, "TTL must be a positive number", none⟩
    ∧ ∃ st2, MemoryCache.set [("k", (9 : ℚ))] "k" 60 0 = .ok st2
        ∧ List.lookup "k" st2 = some (0 + ((60 : Int) : ℚ))
        ∧ st2.getLast? = some ("k", 0 + ((60 : Int) : ℚ))
        ∧ ∀ k, k ≠ "k" → List.lookup k st2 = List.lookup k [("k", (9 : ℚ))] :=
  ⟨(cache_set_ttl_validation [("k", (9 : ℚ))] "k" 0 0 (by simp)).1 le_rfl,
   (cache_set_ttl_validation [("k", (9 : ℚ))] "k" 60 0 (by simp)).2 (by norm_num)⟩

/-- C1: when the derived cache key is not live in the cache, `is_duplicate`
returns false and records the key with expiry `now + ttl_seconds`; a second
call with the same message before that expiry returns true. -/
theorem dedup_first_seen_then_duplicate
    (lib : PyLib) (d : Deduplicator) (st : MemState) (m : PyMsg) (f : String)
    (k : String) (now now2 : ℚ)
    (hnd : (st.map Prod.fst).Nodup)
    (httl : 0 < d.ttl_seconds)
    (hkey : Deduplicator.derive_key lib d m f none = .ok k)
    (hfresh : (MemoryCache.get st k now).1 = false)
    (hwin : now2 ≤ now + (d.ttl_seconds : ℚ)) :
    ∃ st2 : MemState,
      Deduplicator.is_duplicate lib memBackend d st m f none now = .ok (false, st2)
      ∧ List.lookup k st2 = some (now + (d.ttl_seconds : ℚ))
      ∧ Deduplicator.is_duplicate lib memBackend d st2 m f none now2 =
        .ok (true, st2) := by
  have hnd1 := mc_get_nodup k now hnd
  refine ⟨_, isdup_fresh hkey httl hfresh, lookup_set_self _ hnd1, ?_⟩
  apply isdup_dup hkey
  rw [mc_get_true_iff]
  exact ⟨now + (d.ttl_seconds : ℚ), lookup_set_self _ hnd1, hwin⟩

/-- C1 witness: a concrete fresh message is first not a duplicate, then a
duplicate within the window. -/
theorem dedup_first_seen_then_duplicate_witness :
    ∃ st2 : MemState,
      Deduplicator.is_duplicate libW memBackend dW [] (.json vAB) "json" none 0 =
        .ok (false, st2)
      ∧ List.lookup "dedup:H" st2 = some (0 + ((60 : Int) : ℚ))
      ∧ Deduplicator.is_duplicate libW memBackend dW st2 (.json vAB) "json" none 1 =
        .ok (true, st2) :=
  dedup_first_seen_then_duplicate libW dW [] (.json vAB) "json" "dedup:H" 0 1
    (by simp) (by norm_num [dW]) rfl rfl (by norm_num [dW])

/-- C4: when the key is present and live, `is_duplicate` returns true and
the cache state is returned exactly unchanged — no insert happens and the
entry's expiry is not refreshed. -/
theorem duplicate_call_preserves_state
    (lib : PyLib) (d : Deduplicator) (st : MemState) (m : PyMsg) (f : String)
    (ck : Option String) (k : String) (now : ℚ)
    (hkey : Deduplicator.derive_key lib d m f ck = .ok k)
    (hlive : (MemoryCache.get st k now).1 = true) :
    Deduplicator.is_duplicate lib memBackend d st m f ck now = .ok (true, st) :=
  isdup_dup hkey hlive

/-- C4 witness: a live entry at a concrete state is reported duplicate with
the state unchanged. -/
theorem duplicate_call_preserves_state_witness :
    Deduplicator.is_duplicate libW memBackend dW [("dedup:H", (10 : ℚ))]
      (.json vAB) "json" none 0 = .ok (true, [("dedup:H", (10 : ℚ))]) :=
  duplicate_call_preserves_state libW dW [("dedup:H", (10 : ℚ))] (.json vAB) "json"
    none "dedup:H" 0 rfl rfl

/-- C6: a supplied custom key makes the cache key exactly
`key_prefix ++ custom_key`, bypassing hashing for every message and format;
consequently two different messages sharing the custom key are duplicates of
each other: the first call returns false, the second true within the TTL. -/
theorem custom_key_bypasses_hashing
    (lib : PyLib) (d : Deduplicator) (st : MemState) (m1 m2 : PyMsg)
    (f1 f2 : String) (ck : String) (now now2 : ℚ)
    (hnd : (st.map Prod.fst).Nodup)
    (httl : 0 < d.ttl_seconds)
    (hfresh : (MemoryCache.get st (d.key_pfx ++ ck) now).1 = false)
    (hwin : now2 ≤ now + (d.ttl_seconds : ℚ)) :
    (∀ (m : PyMsg) (f : String),
      Deduplicator.derive_key lib d m f (some ck) = .ok (d.key_pfx ++ ck))
    ∧ ∃ st2,
        Deduplicator.is_duplicate lib memBackend d st m1 f1 (some ck) now =
          .ok (false, st2)
        ∧ Deduplicator.is_duplicate lib memBackend d st2 m2 f2 (some ck) now2 =
          .ok (true, st2) := by
  have hnd1 := mc_get_nodup (d.key_pfx ++ ck) now hnd
  have hk1 : Deduplicator.derive_key lib d m1 f1 (some ck) = .ok (d.key_pfx ++ ck) := rfl
  have hk2 : Deduplicator.derive_key lib d m2 f2 (some ck) = .ok (d.key_pfx ++ ck) := rfl
  refine ⟨fun m f => rfl, _, isdup_fresh hk1 httl hfresh, ?_⟩
  apply isdup_dup hk2
  rw [mc_get_true_iff]
  exact ⟨now + (d.ttl_seconds : ℚ), lookup_set_self _ hnd1, hwin⟩

/-- C6 witness: two entirely different messages — one of them not even
hashable — are treated as duplicates under a shared custom key. -/
theorem custom_key_bypasses_hashing_witness :
    (∀ (m : PyMsg) (f : String),
      Deduplicator.derive_key libW dW m f (some "id123") = .ok (dW.key_pfx ++ "id123"))
    ∧ ∃ st2,
        Deduplicator.is_duplicate libW memBackend dW [] (.json vAB) "json"
          (some "id123") 0 = .ok (false, st2)
        ∧ Deduplicator.is_duplicate libW memBackend dW st2 .objOther "json"
          (some "id123") 1 = .ok (true, st2) :=
  custom_key_bypasses_hashing libW dW [] (.json vAB) .objOther "json" "json" "id123" 0 1
    (by simp) (by norm_num [dW]) rfl (by norm_num [dW])

/-- C7: a failed `is_duplicate` call corrupts no state: if key derivation
(hashing) fails, the error propagates with the cache state exactly as it
was; if the cache insert fails after a successful not-present read, the call
surfaces the cache error, the key is absent from the resulting state, and
any later attempt still sees it as not present. -/
theorem failed_call_no_partial_state
    (lib : PyLib) (d : Deduplicator) (st : MemState) (m : PyMsg) (f : String)
    (ck : Option String) (now : ℚ)
    (hnd : (st.map Prod.fst).Nodup) :
    (∀ e, Deduplicator.derive_key lib d m f ck = .error e →
      Deduplicator.is_duplicate lib memBackend d st m f ck now =
        .error (wrapExc e, st))
    ∧ (∀ k, Deduplicator.derive_key lib d m f ck = .ok k →
      (MemoryCache.get st k now).1 = false →
      d.ttl_seconds ≤ 0 →
      Deduplicator.is_duplicate lib memBackend d st m f ck now =
        .error (⟨.cacheError, "TTL must be a positive number", none⟩,
          (MemoryCache.get st k now).2)
      ∧ List.lookup k (MemoryCache.get st k now).2 = none
      ∧ ∀ now3, (MemoryCache.get (MemoryCache.get st k now).2 k now3).1 = false) := by
  constructor
  · intro e he
    simp only [Deduplicator.is_duplicate, Deduplicator.is_duplicate_body, he]
  · intro k hk hfresh httl
    have hlook : List.lookup k (MemoryCache.get st k now).2 = none :=
      mc_get_false_none hnd hfresh
    refine ⟨?_, hlook, fun now3 => by rw [mc_get_none hlook]⟩
    set st1 := (MemoryCache.get st k now).2 with hst1
    have hg : MemoryCache.get st k now = (false, st1) := by
      rw [hst1, ← hfresh]
    simp only [Deduplicator.is_duplicate, Deduplicator.is_duplicate_body, hk, memBackend,
      hg, mc_set_err httl, Bool.false_eq_true, if_false, wrapExc]

/-- C7 witness: a hashing failure leaves the state untouched, and a failing
insert (non-positive TTL on a deduplicator built without the constructor's
validation) leaves the key absent. -/
theorem failed_call_no_partial_state_witness :
    Deduplicator.is_duplicate libW memBackend dW [] .objOther "json" none 0 =
      .error (wrapExc ⟨.serializationError, "Failed to serialize message to JSON: ...", none⟩, [])
    ∧ Deduplicator.is_duplicate libW memBackend ⟨0, "dedup:", ⟨"sha256", true⟩⟩ []
        (.json vAB) "json" none 0 =
      .error (⟨.cacheError, "TTL must be a positive number", none⟩, []) :=
  ⟨(failed_call_no_partial_state libW dW [] .objOther "json" none 0 (by simp)).1
      ⟨.serializationError, "Failed to serialize message to JSON: ...", none⟩ rfl,
   ((failed_call_no_partial_state libW ⟨0, "dedup:", ⟨"sha256", true⟩⟩ [] (.json vAB)
      "json" none 0 (by simp)).2 "dedup:H" rfl rfl le_rfl).1⟩

/-- C8: every failure surfaced by `is_duplicate` is a typed error: hashing
failures are always `SerializationError`; a surfaced error is always of
serialization or cache kind; `SerializationError` and `CacheError` from the
body propagate unchanged; any other underlying exception is wrapped into a
`CacheError` carrying the original cause. -/
theorem error_surface_taxonomy {σ : Type}
    (lib : PyLib) (be : CacheBackend σ) (d : Deduplicator) (st : σ) (m : PyMsg)
    (f : String) (ck : Option String) (now : ℚ) :
    (∀ e, MessageHasher.hash_message lib d.hasher m f = .error e →
      e.kind = .serializationError)
    ∧ (∀ e st1, Deduplicator.is_duplicate lib be d st m f ck now = .error (e, st1) →
        e.kind = .serializationError ∨ e.kind = .cacheError)
    ∧ (∀ e st1,
        Deduplicator.is_duplicate_body lib be d st m f ck now = .error (e, st1) →
        (e.kind = .serializationError ∨ e.kind = .cacheError) →
        Deduplicator.is_duplicate lib be d st m f ck now = .error (e, st1))
    ∧ (∀ e st1,
        Deduplicator.is_duplicate_body lib be d st m f ck now = .error (e, st1) →
        e.kind ≠ .serializationError → e.kind ≠ .cacheError →
        Deduplicator.is_duplicate lib be d st m f ck now =
          .error (⟨.cacheError, "Unexpected error during deduplication: " ++ e.msg,
            some e.msg⟩, st1)) := by
  refine ⟨hash_message_error_kind lib d.hasher m f, ?_, ?_, ?_⟩
  · intro e st1 he
    cases hb : Deduplicator.is_duplicate_body lib be d st m f ck now with
    | ok r =>
      simp only [Deduplicator.is_duplicate, hb] at he
      exact Except.noConfusion he
    | error p =>
      obtain ⟨e0, st0⟩ := p
      simp only [Deduplicator.is_duplicate, hb, Except.error.injEq, Prod.mk.injEq] at he
      rw [← he.1]
      exact wrapExc_kind e0
  · intro e st1 hb hkinds
    simp only [Deduplicator.is_duplicate, hb, wrapExc_id hkinds]
  · intro e st1 hb h1 h2
    simp only [Deduplicator.is_duplicate, hb, wrapExc_wraps h1 h2]

/-- C8 witness: a hashing failure is serialization-kind, and a backend
raising an untyped exception surfaces as a wrapped `CacheError` carrying the
cause. -/
theorem error_surface_taxonomy_witness :
    (⟨.serializationError, "Failed to serialize message to JSON: ...", none⟩ :
      PyExc).kind = .serializationError
    ∧ Deduplicator.is_duplicate libW failBackend dW ([] : MemState) (.json vAB)
        "json" none 0 =
      .error (⟨.cacheError, "Unexpected error during deduplication: " ++ "boom",
        some "boom"⟩, []) :=
  ⟨(error_surface_taxonomy libW failBackend dW [] .objOther "json" none 0).1
      ⟨.serializationError, "Failed to serialize message to JSON: ...", none⟩ rfl,
   (error_surface_taxonomy libW failBackend dW [] (.json vAB) "json" none 0).2.2.2
      ⟨.otherError, "boom", none⟩ [] rfl (by simp) (by simp)⟩

/-- C9 (amended): construction fails fast with `ConfigurationError` exactly
when `ttl_seconds` is not a positive integer; the hash algorithm is not
validated at construction; for a valid TTL construction succeeds, storing
the parameters and defaulting the cache backend to a fresh in-memory
instance when none is supplied. -/
theorem init_validates_ttl_only (ttl : TTLParam) (cb : Option MemState)
    (alg kp : String) :
    (ttl = .nonInt → Deduplicator.init ttl cb alg kp =
      .error ⟨.configurationError, "ttl_seconds must be a positive integer", none⟩)
    ∧ (∀ n : Int, ttl = .int n → n ≤ 0 → Deduplicator.init ttl cb alg kp =
      .error ⟨.configurationError, "ttl_seconds must be a positive integer", none⟩)
    ∧ (∀ n : Int, ttl = .int n → 0 < n →
      Deduplicator.init ttl cb alg kp = .ok (⟨n, kp, ⟨alg, true⟩⟩, cb.getD [])) := by
  refine ⟨?_, ?_, ?_⟩
  · rintro rfl
    rfl
  · rintro n rfl hn
    simp [Deduplicator.init, hn]
  · rintro n rfl hn
    simp [Deduplicator.init, not_le.mpr hn]

/-- C9 witness: a zero TTL is rejected, a positive TTL accepted with the
default in-memory cache. -/
theorem init_validates_ttl_only_witness :
    Deduplicator.init (.int 0) none "sha256" "dedup:" =
      .error ⟨.configurationError, "ttl_seconds must be a positive integer", none⟩
    ∧ Deduplicator.init (.int 5) none "sha256" "dedup:" =
      .ok (⟨5, "dedup:", ⟨"sha256", true⟩⟩, []) :=
  ⟨(init_validates_ttl_only (.int 0) none "sha256" "dedup:").2.1 0 rfl le_rfl,
   (init_validates_ttl_only (.int 5) none "sha256" "dedup:").2.2 5 rfl (by norm_num)⟩

/-- C9 counterexample: construction succeeds although the supplied hash
algorithm name is unrecognized — the source validates only `ttl_seconds`,
so no `ConfigurationError` is raised for the algorithm. -/
theorem init_accepts_unknown_algorithm :
    Deduplicator.init (.int 60) none "no-such-algorithm" "dedup:" =
      .ok (⟨60, "dedup:", ⟨"no-such-algorithm", true⟩⟩, []) := rfl

/-- C10: the format name is matched after lower-casing, so any
capitalization behaves identically; the unsupported-format
`SerializationError` is produced exactly when the lowered name is neither
"json" nor "protobuf". -/
theorem hash_message_format_case_insensitive
    (lib : PyLib) (h : MessageHasher) (m : PyMsg) (f1 f2 : String)
    (hlow : pyLower f1 = pyLower f2) :
    MessageHasher.hash_message lib h m f1 = MessageHasher.hash_message lib h m f2
    ∧ (pyLower f1 ≠ "json" → pyLower f1 ≠ "protobuf" →
      MessageHasher.hash_message lib h m f1 =
        .error ⟨.serializationError, "Unsupported message format: " ++ pyLower f1, none⟩)
    ∧ (∀ e, (pyLower f1 = "json" ∨ pyLower f1 = "protobuf") →
      MessageHasher.hash_message lib h m f1 = .error e →
      e.msg ≠ "Unsupported message format: " ++ pyLower f1) := by
  refine ⟨?_, ?_, ?_⟩
  · simp only [MessageHasher.hash_message, hlow]
  · intro h1 h2
    simp only [MessageHasher.hash_message, if_neg h1, if_neg h2]
  · intro e hor he
    cases hor with
    | inl hj =>
      simp only [MessageHasher.hash_message, if_pos hj] at he
      rw [hash_json_error_msg lib h m e he, hj]
      decide
    | inr hp =>
      have hnj : pyLower f1 ≠ "json" := by
        rw [hp]
        decide
      simp only [MessageHasher.hash_message, if_neg hnj, if_pos hp] at he
      rw [hash_protobuf_error_msg lib h m e he, hp]
      decide

/-- C10 witness: "JSON" behaves as "json", and "XML" yields the
unsupported-format error. -/
theorem hash_message_format_case_insensitive_witness :
    MessageHasher.hash_message libW ⟨"sha256", true⟩ (.json vAB) "JSON" =
      MessageHasher.hash_message libW ⟨"sha256", true⟩ (.json vAB) "json"
    ∧ MessageHasher.hash_message libW ⟨"sha256", true⟩ (.json vAB) "XML" =
      .error ⟨.serializationError, "Unsupported message format: " ++ pyLower "XML",
        none⟩ :=
  ⟨(hash_message_format_case_insensitive libW ⟨"sha256", true⟩ (.json vAB) "JSON"
      "json" rfl).1,
   (hash_message_format_case_insensitive libW ⟨"sha256", true⟩ (.json vAB) "XML"
      "XML" rfl).2.1 (by decide) (by decide)⟩
